import Mathlib

/-!
Shallow embedding of the iTalk engine core (`src/Engine/core.py` and
`src/Engine/extensions.py`).

Python dicts are modelled as insertion-ordered association lists with
unique keys (`Dict`): `dictGet` is `d.get(k)`, `dictInsert` is
`d[k] = v` (in-place update of an existing key, append of a new one),
`dictRemove` is `del d[k]`.

Side effects of an engine operation (emitted events, log lines, calls to
`save_state`) are returned explicitly in an `OpOut` record.  Event
emission at the facade level is modelled as appending the event to the
returned trace; the dispatch of one emission to its subscriber list,
with the per-callback try/except of `ItalkEngine.emit` and
`ExtensionManager.call_hook`, is modelled separately by `runCallbacks`
over `Callback` values carrying their declaring module (`__module__`)
and their behaviour at the dispatch (return normally, or raise).
Timestamps (`datetime.utcnow`) are passed in as an explicit argument.
-/

namespace Italk

abbrev Dict (α : Type) := List (String × α)

/-- `d.get(k)` on a Python dict. -/
def dictGet {α : Type} (d : Dict α) (k : String) : Option α :=
  match d with
  | [] => none
  | (k2, v) :: rest => if k2 = k then some v else dictGet rest k

/-- `d[k] = v` on a Python dict: update in place, or append a new key. -/
def dictInsert {α : Type} (d : Dict α) (k : String) (v : α) : Dict α :=
  match d with
  | [] => [(k, v)]
  | (k2, v2) :: rest =>
      if k2 = k then (k, v) :: rest else (k2, v2) :: dictInsert rest k v

/-- `del d[k]` on a Python dict (keys are unique, so first hit suffices). -/
def dictRemove {α : Type} (d : Dict α) (k : String) : Dict α :=
  match d with
  | [] => []
  | (k2, v2) :: rest =>
      if k2 = k then rest else (k2, v2) :: dictRemove rest k

/-- The open key/value metadata bag of a `User` (`metadata: dict`). -/
abbrev Meta := List (String × String)

/-- `core.User`: id, username, metadata, connected flag. -/
structure User where
  id : String
  username : String
  metadata : Meta
  connected : Bool
deriving DecidableEq

/-- `core.Message`: author, content, timestamp (assigned at construction). -/
structure Message where
  user : User
  content : String
  timestamp : String
deriving DecidableEq

/-- `core.Group`: name and members, a dict keyed by user id. -/
structure Group where
  name : String
  members : Dict User
deriving DecidableEq

/-- The entity state owned by `ItalkEngine`: `self.users` and `self.groups`. -/
structure EngineState where
  users : Dict User
  groups : Dict Group
deriving DecidableEq

/-- One event emission performed by a facade operation via `self.emit`. -/
inductive Event where
  | onConnect (u : User)
  | onDisconnect (u : User)
  | onMessage (u : User) (m : Message)
deriving DecidableEq

/-- Result of a facade operation: new entity state, emitted events, log
lines `(level, message)`, number of `save_state` calls, return value.
Log text follows the source with accents and apostrophes elided. -/
structure OpOut (α : Type) where
  state : EngineState
  events : List Event
  logs : List (String × String)
  saves : Nat
  ret : α
deriving DecidableEq

/-- `ItalkEngine.register_user`: raises `ValueError` on a duplicate id
(before any mutation), otherwise creates the user disconnected and
persists.  The raise is modelled as an `Except.error` return value with
the state passed through unchanged. -/
def register_user (s : EngineState) (user_id username : String)
    (metadata : Option Meta) : OpOut (Except String User) :=
  match dictGet s.users user_id with
  | some _ =>
      { state := s, events := [], logs := [], saves := 0,
        ret := Except.error ("Utilisateur " ++ user_id ++ " deja enregistre") }
  | none =>
      let user : User :=
        { id := user_id, username := username,
          metadata := metadata.getD [], connected := false }
      { state := { s with users := dictInsert s.users user_id user },
        events := [],
        logs := [("info", "Utilisateur enregistre : " ++ username)],
        saves := 1,
        ret := Except.ok user }

/-- `ItalkEngine.connect_user`: fetches the user or creates one
(`User(...)` then `self.users[user_id] = user`), sets `connected = True`
on the object held by the dict, emits `on_connect`, logs, persists. -/
def connect_user (s : EngineState) (user_id username : String)
    (metadata : Option Meta) : OpOut User :=
  let user0 : User :=
    match dictGet s.users user_id with
    | some u => u
    | none =>
        { id := user_id, username := username,
          metadata := metadata.getD [], connected := false }
  let user : User := { user0 with connected := true }
  { state := { s with users := dictInsert s.users user_id user },
    events := [Event.onConnect user],
    logs := [("info", username ++ " connecte.")],
    saves := 1,
    ret := user }

/-- `ItalkEngine.disconnect_user`: `users.get(id)`; if absent, nothing
happens at all; if present, sets `connected = False`, emits
`on_disconnect`, logs, persists — with no check of the previous
`connected` value. -/
def disconnect_user (s : EngineState) (user_id : String) : OpOut Unit :=
  match dictGet s.users user_id with
  | none => { state := s, events := [], logs := [], saves := 0, ret := () }
  | some u =>
      let u2 : User := { u with connected := false }
      { state := { s with users := dictInsert s.users user_id u2 },
        events := [Event.onDisconnect u2],
        logs := [("info", u.username ++ " deconnecte.")],
        saves := 1,
        ret := () }

/-- `ItalkEngine.send_message`: `if not user or not user.connected` logs
a warning and returns `None` before any emission or persist; otherwise
builds the `Message`, emits `on_message` with `(user, msg)`, logs,
persists and returns the message.  `now` stands for
`datetime.utcnow().isoformat()`. -/
def send_message (s : EngineState) (user_id content now : String) :
    OpOut (Option Message) :=
  match dictGet s.users user_id with
  | some u =>
      if u.connected then
        let msg : Message := { user := u, content := content, timestamp := now }
        { state := s,
          events := [Event.onMessage u msg],
          logs := [("info", "Message de " ++ u.username ++ " : " ++ content)],
          saves := 1,
          ret := some msg }
      else
        { state := s, events := [],
          logs := [("warning", "Utilisateur non connecte : " ++ user_id)],
          saves := 0, ret := none }
  | none =>
      { state := s, events := [],
        logs := [("warning", "Utilisateur non connecte : " ++ user_id)],
        saves := 0, ret := none }

/-- A callback held by the hook/listener tables.  `declModule` is the
callback's `__module__` attribute; `behavior` is what one invocation of
it does at the dispatch under consideration: `none` returns normally,
`some e` raises an exception rendered as `e`. -/
structure Callback where
  cid : Nat
  declModule : String
  behavior : Option String
deriving DecidableEq

/-- `self.listeners` as built by `ItalkEngine.__init__`: exactly the
four keys, each mapped to an empty callback list. -/
def initialListeners : Dict (List Callback) :=
  [("on_connect", []), ("on_disconnect", []), ("on_message", []), ("on_error", [])]

/-- `ItalkEngine.on` (named `engineOn` because `on` is reserved by the
library): appends the callback when `event_name in self.listeners`,
otherwise logs a warning and changes nothing.  Returns the new table and
the log lines. -/
def engineOn (listeners : Dict (List Callback)) (event_name : String)
    (cb : Callback) : Dict (List Callback) × List (String × String) :=
  match dictGet listeners event_name with
  | some cbs => (dictInsert listeners event_name (cbs ++ [cb]), [])
  | none =>
      (listeners,
       [("warning", "Tentative ajouter un evenement inconnu : " ++ event_name)])

/-- What one dispatch records for one callback: it was invoked and
returned, or it raised and the error was caught and logged. -/
inductive DispatchEntry where
  | invoked (cid : Nat)
  | errorLogged (cid : Nat) (msg : String)
deriving DecidableEq

/-- The dispatch entry produced by the try/except around one callback
invocation. -/
def entryOf (cb : Callback) : DispatchEntry :=
  match cb.behavior with
  | none => DispatchEntry.invoked cb.cid
  | some e => DispatchEntry.errorLogged cb.cid e

/-- The shared dispatch loop of `ItalkEngine.emit` and
`ExtensionManager.call_hook`: each callback is run inside its own
try/except, so the loop always reaches the end of the list. -/
def runCallbacks (cbs : List Callback) : List DispatchEntry :=
  match cbs with
  | [] => []
  | cb :: rest => entryOf cb :: runCallbacks rest

/-- `ItalkEngine.emit`: iterates `self.listeners.get(event_name, [])`
invoking each callback under try/except. -/
def emit (listeners : Dict (List Callback)) (event_name : String) :
    List DispatchEntry :=
  runCallbacks ((dictGet listeners event_name).getD [])

/-- A loaded extension module as `ExtensionManager` sees it:
`modName` is `module.__name__` (set from the `name` handed to
`spec_from_file_location`), and `exports` holds the module's callable
attributes that carry a hook name (non-callable attributes are treated
as absent, as `callable(hook_func)` filters them out). -/
structure ExtModule where
  modName : String
  exports : Dict Callback
deriving DecidableEq

/-- What resolving and executing an extension source file can do:
the file is absent, `spec_from_file_location` yields no usable spec,
`exec_module` raises while running the module body, or the module loads
and its attributes are as given. -/
inductive LoadOutcome where
  | notFound
  | noSpec
  | execFails (msg : String)
  | ok (m : ExtModule)

/-- The mutable state of `ExtensionManager`: `self.extensions`
(name to module) and `self.hooks` (event name to callback list). -/
structure ManagerState where
  extensions : Dict ExtModule
  hooks : Dict (List Callback)
deriving DecidableEq

/-- `self.hooks` as built by `ExtensionManager.__init__`. -/
def initialHooks : Dict (List Callback) :=
  [("on_init", []), ("on_connect", []), ("on_disconnect", []),
   ("on_message", []), ("on_error", [])]

/-- The hook-discovery loop of `load_extension`: for each key of
`self.hooks`, if the module exports a callable of that name, append it
to that key's list. -/
def bindHooks (hooks : Dict (List Callback)) (m : ExtModule) :
    Dict (List Callback) :=
  hooks.map (fun p =>
    match dictGet m.exports p.1 with
    | some f => (p.1, p.2 ++ [f])
    | none => p)

/-- `ExtensionManager.load_extension`: missing file, unusable spec and a
raising module body each log and leave the state untouched (the
registration `self.extensions[name] = module` and the hook loop sit
after `exec_module` inside the same try).  On success the module is
registered and its exported hooks appended.  `fs` abstracts the
filesystem and module execution. -/
def load_extension (fs : String → LoadOutcome) (st : ManagerState)
    (name : String) : ManagerState × List (String × String) :=
  match fs name with
  | LoadOutcome.notFound =>
      (st, [("warning", "Extension non trouvee : " ++ name)])
  | LoadOutcome.noSpec =>
      (st, [("error", "Impossible de charger spec pour " ++ name)])
  | LoadOutcome.execFails _ =>
      (st, [("error", "Erreur chargement extension " ++ name)])
  | LoadOutcome.ok m =>
      ({ extensions := dictInsert st.extensions name m,
         hooks := bindHooks st.hooks m },
       [("info", "Extension chargee : " ++ name)])

/-- `ExtensionManager.unload_extension`: warns if the name has no
record; otherwise rebuilds every hook list keeping the callbacks whose
`__module__` differs from `module.__name__`, and deletes the record. -/
def unload_extension (st : ManagerState) (name : String) :
    ManagerState × List (String × String) :=
  match dictGet st.extensions name with
  | none => (st, [("warning", "Extension non chargee : " ++ name)])
  | some m =>
      ({ extensions := dictRemove st.extensions name,
         hooks := st.hooks.map
           (fun p => (p.1, p.2.filter (fun f => f.declModule != m.modName))) },
       [("info", "Extension dechargee : " ++ name)])

/-- `ExtensionManager.call_hook`: unknown hook names log a warning and
dispatch nothing; known ones run their list under per-callback
try/except. -/
def call_hook (st : ManagerState) (hook_name : String) : List DispatchEntry :=
  match dictGet st.hooks hook_name with
  | none => []
  | some funcs => runCallbacks funcs

/-- One user record of the snapshot written by `save_state`. -/
structure SavedUser where
  id : String
  username : String
  metadata : Meta
  connected : Bool
deriving DecidableEq

/-- One group record of the snapshot: name and the member id list. -/
structure SavedGroup where
  name : String
  members : List String
deriving DecidableEq

/-- The structural snapshot `save_state` serializes to JSON; `json.dump`
followed by `json.load` is the identity on this structural form, so the
file round trip is modelled as the identity on `Snapshot`. -/
structure Snapshot where
  users : List SavedUser
  groups : List SavedGroup
deriving DecidableEq

/-- `ItalkEngine.save_state`: users in dict-value order with their four
fields, groups with `list(g.members.keys())`. -/
def save_state (s : EngineState) : Snapshot :=
  { users := s.users.map (fun p =>
      { id := p.2.id, username := p.2.username,
        metadata := p.2.metadata, connected := p.2.connected }),
    groups := s.groups.map (fun p =>
      { name := p.2.name, members := p.2.members.map Prod.fst }) }

/-- The `User(...)` construction performed for each snapshot record in
the loading loop of `load_state`. -/
def userOfSaved (su : SavedUser) : User :=
  { id := su.id, username := su.username,
    metadata := su.metadata, connected := su.connected }

/-- The user-loading loop of `load_state`: starting from `self.users = {}`,
insert each record keyed by its id. -/
def loadUsers (d : Dict User) (l : List SavedUser) : Dict User :=
  l.foldl (fun d su => dictInsert d su.id (userOfSaved su)) d

/-- The membership loop of `load_state`: `if user_id in self.users:
group.add_member(self.users[user_id])`, silently skipping dangling ids. -/
def loadMembers (users : Dict User) (acc : Dict User) (ids : List String) :
    Dict User :=
  ids.foldl (fun m uid =>
    match dictGet users uid with
    | some u => dictInsert m uid u
    | none => m) acc

/-- The group-loading loop of `load_state`. -/
def loadGroups (users : Dict User) (d : Dict Group) (l : List SavedGroup) :
    Dict Group :=
  l.foldl (fun d sg =>
    dictInsert d sg.name
      { name := sg.name, members := loadMembers users [] sg.members }) d

/-- `ItalkEngine.load_state` applied to a parsed snapshot: rebuilds
`self.users` and `self.groups` from scratch.  (A missing snapshot file
returns without touching the state and is not modelled here.) -/
def load_state (snap : Snapshot) : EngineState :=
  let users := loadUsers [] snap.users
  { users := users, groups := loadGroups users [] snap.groups }

/-! Helper lemmas about the dict model. -/

theorem dictGet_insert_self {α : Type} (d : Dict α) (k : String) (v : α) :
    dictGet (dictInsert d k v) k = some v := by
  induction d with
  | nil => simp [dictInsert, dictGet]
  | cons p rest ih =>
      by_cases h : p.1 = k
      · simp [dictInsert, dictGet, h]
      · simp [dictInsert, dictGet, h, ih]

theorem dictGet_insert_ne {α : Type} (d : Dict α) (k k2 : String) (v : α)
    (h : k2 ≠ k) : dictGet (dictInsert d k v) k2 = dictGet d k2 := by
  have hk : ¬ k = k2 := fun h2 => h (Eq.symm h2)
  induction d with
  | nil => simp [dictInsert, dictGet, hk]
  | cons p rest ih =>
      by_cases hp : p.1 = k
      · subst hp
        simp [dictInsert, dictGet, hk]
      · by_cases hq : p.1 = k2
        · simp [dictInsert, dictGet, hp, hq, h]
        · simp [dictInsert, dictGet, hp, hq, ih]

theorem dictInsert_absent {α : Type} (d : Dict α) (k : String) (v : α)
    (h : dictGet d k = none) : dictInsert d k v = d ++ [(k, v)] := by
  induction d with
  | nil => simp [dictInsert]
  | cons p rest ih =>
      by_cases hp : p.1 = k
      · simp [dictGet, hp] at h
      · simp [dictGet, hp] at h
        simp [dictInsert, hp, ih h]

theorem dictRemove_insert_absent {α : Type} (d : Dict α) (k : String) (v : α)
    (h : dictGet d k = none) : dictRemove (dictInsert d k v) k = d := by
  induction d with
  | nil => simp [dictInsert, dictRemove]
  | cons p rest ih =>
      by_cases hp : p.1 = k
      · simp [dictGet, hp] at h
      · simp [dictGet, hp] at h
        simp [dictInsert, dictRemove, hp, ih h]

theorem dictGet_append_left_none {α : Type} (d1 d2 : Dict α) (k : String)
    (h : dictGet d1 k = none) : dictGet (d1 ++ d2) k = dictGet d2 k := by
  induction d1 with
  | nil => simp
  | cons p rest ih =>
      by_cases hp : p.1 = k
      · simp [dictGet, hp] at h
      · simp [dictGet, hp] at h
        simp [dictGet, hp, ih h]

theorem dictGet_mem {α : Type} (d : Dict α) (k : String) (v : α)
    (h : dictGet d k = some v) : (k, v) ∈ d := by
  induction d with
  | nil => simp [dictGet] at h
  | cons p rest ih =>
      by_cases hp : p.1 = k
      · simp [dictGet, hp] at h
        subst hp h
        exact List.mem_cons_self _ _
      · simp [dictGet, hp] at h
        exact List.mem_cons_of_mem _ (ih h)

/-! Claim theorems. -/

/-- Claim C3: for every id already present in the user registry,
`register_user(id, name)` fails with the DuplicateUser-class error
(`ValueError`, raised before any mutation) and the engine state — user
registry and group registry — is exactly the same after the failed call
as before it; no persist happens. -/
theorem register_duplicate_fails (s : EngineState) (uid uname : String)
    (om : Option Meta) (u0 : User) (h : dictGet s.users uid = some u0) :
    (register_user s uid uname om).state = s ∧
    (register_user s uid uname om).ret =
      Except.error ("Utilisateur " ++ uid ++ " deja enregistre") ∧
    (register_user s uid uname om).saves = 0 := by
  simp [register_user, h]

/-- Witness for C3 at a concrete duplicate registration. -/
theorem register_duplicate_fails_witness :
    dictGet (EngineState.mk
        [("u1", { id := "u1", username := "Alice", metadata := [],
                  connected := false })] []).users "u1" =
      some { id := "u1", username := "Alice", metadata := [],
             connected := false } ∧
    (register_user (EngineState.mk
        [("u1", { id := "u1", username := "Alice", metadata := [],
                  connected := false })] []) "u1" "Bob" none).state =
      EngineState.mk
        [("u1", { id := "u1", username := "Alice", metadata := [],
                  connected := false })] [] ∧
    (register_user (EngineState.mk
        [("u1", { id := "u1", username := "Alice", metadata := [],
                  connected := false })] []) "u1" "Bob" none).ret =
      Except.error ("Utilisateur " ++ "u1" ++ " deja enregistre") ∧
    (register_user (EngineState.mk
        [("u1", { id := "u1", username := "Alice", metadata := [],
                  connected := false })] []) "u1" "Bob" none).saves = 0 :=
  ⟨by decide,
   register_duplicate_fails _ "u1" "Bob" none
     { id := "u1", username := "Alice", metadata := [], connected := false }
     (by decide)⟩

/-- Claim C2 counterexample: with a known user that is already
disconnected, `disconnect_user` still fires `on_disconnect` (and
persists), although no Connected-to-Disconnected transition occurred —
refuting both the claimed no-op and the claimed if-and-only-if. -/
theorem disconnect_already_disconnected_fires :
    ({ id := "u1", username := "Alice", metadata := [],
       connected := false } : User).connected = false ∧
    (disconnect_user (EngineState.mk
        [("u1", { id := "u1", username := "Alice", metadata := [],
                  connected := false })] []) "u1").events =
      [Event.onDisconnect
        { id := "u1", username := "Alice", metadata := [],
          connected := false }] ∧
    (disconnect_user (EngineState.mk
        [("u1", { id := "u1", username := "Alice", metadata := [],
                  connected := false })] []) "u1").saves = 1 := by
  decide

/-- Claim C2 amended: `disconnect_user(id)` is a silent no-op when the
id is unknown; for every known id — connected or not — it sets the
user's `connected` flag to false, fires `on_disconnect` with the
updated user, and persists.  (The event thus fires on every call with a
known id, not only when a Connected-to-Disconnected transition
occurred.) -/
theorem disconnect_spec (s : EngineState) (uid : String) :
    (dictGet s.users uid = none →
      disconnect_user s uid =
        { state := s, events := [], logs := [], saves := 0, ret := () }) ∧
    (∀ u : User, dictGet s.users uid = some u →
      (disconnect_user s uid).state.users =
        dictInsert s.users uid { u with connected := false } ∧
      (disconnect_user s uid).state.groups = s.groups ∧
      (disconnect_user s uid).events =
        [Event.onDisconnect { u with connected := false }] ∧
      (disconnect_user s uid).saves = 1) := by
  constructor
  · intro h
    simp [disconnect_user, h]
  · intro u h
    simp [disconnect_user, h]

/-- Witness for C2's amended theorem at a concrete connected user. -/
theorem disconnect_spec_witness :
    (disconnect_user (EngineState.mk
        [("u1", { id := "u1", username := "Alice", metadata := [],
                  connected := true })] []) "u1").events =
      [Event.onDisconnect
        { id := "u1", username := "Alice", metadata := [],
          connected := false }] :=
  ((disconnect_spec (EngineState.mk
      [("u1", { id := "u1", username := "Alice", metadata := [],
                connected := true })] []) "u1").2
    { id := "u1", username := "Alice", metadata := [], connected := true }
    (by decide)).2.2.1

/-- Claim C4: `send_message(id, content)` with an unknown id or a
disconnected user returns no message, fires no event, leaves the state
untouched, does not persist, and reports the rejection as a logged
warning rather than raising. -/
theorem send_message_rejected (s : EngineState) (uid content now : String)
    (h : dictGet s.users uid = none ∨
         ∃ u : User, dictGet s.users uid = some u ∧ u.connected = false) :
    (send_message s uid content now).ret = none ∧
    (send_message s uid content now).events = [] ∧
    (send_message s uid content now).state = s ∧
    (send_message s uid content now).saves = 0 ∧
    (send_message s uid content now).logs =
      [("warning", "Utilisateur non connecte : " ++ uid)] := by
  rcases h with h | ⟨u, h, hc⟩
  · simp [send_message, h]
  · simp [send_message, h, hc]

/-- Witness for C4 at an unknown id on the empty engine state. -/
theorem send_message_rejected_witness :
    (dictGet (EngineState.mk [] []).users "ghost" = none ∨
     ∃ u : User, dictGet (EngineState.mk [] []).users "ghost" = some u ∧
       u.connected = false) ∧
    (send_message (EngineState.mk [] []) "ghost" "hi" "t0").ret = none ∧
    (send_message (EngineState.mk [] []) "ghost" "hi" "t0").events = [] :=
  ⟨Or.inl rfl,
   (send_message_rejected (EngineState.mk [] []) "ghost" "hi" "t0"
      (Or.inl rfl)).1,
   (send_message_rejected (EngineState.mk [] []) "ghost" "hi" "t0"
      (Or.inl rfl)).2.1⟩

/-- Claim C9: `connect_user(id, name)` never fails (it is a total
function of the model): the returned user has `connected = true` and is
the one stored under the id (created fresh from the arguments when the
id was unknown — upsert), `on_connect` is fired with that user, and
`save_state` runs exactly once before the call returns. -/
theorem connect_user_spec (s : EngineState) (uid uname : String)
    (om : Option Meta) :
    (connect_user s uid uname om).ret.connected = true ∧
    dictGet (connect_user s uid uname om).state.users uid =
      some (connect_user s uid uname om).ret ∧
    (connect_user s uid uname om).events =
      [Event.onConnect (connect_user s uid uname om).ret] ∧
    (connect_user s uid uname om).saves = 1 ∧
    (dictGet s.users uid = none →
      (connect_user s uid uname om).ret =
        { id := uid, username := uname, metadata := om.getD [],
          connected := true }) := by
  cases h : dictGet s.users uid with
  | none => simp [connect_user, h, dictGet_insert_self]
  | some u => simp [connect_user, h, dictGet_insert_self]

/-- Witness for C9 at an unknown id on the empty engine state. -/
theorem connect_user_spec_witness :
    dictGet (EngineState.mk [] []).users "u1" = none ∧
    (connect_user (EngineState.mk [] []) "u1" "Alice" none).ret =
      { id := "u1", username := "Alice", metadata := [],
        connected := true } ∧
    (connect_user (EngineState.mk [] []) "u1" "Alice" none).saves = 1 :=
  ⟨rfl,
   (connect_user_spec (EngineState.mk [] []) "u1" "Alice" none).2.2.2.2 rfl,
   (connect_user_spec (EngineState.mk [] []) "u1" "Alice" none).2.2.2.1⟩

/-- Claim C10: for an id already in the registry, `connect_user` ignores
the supplied name and metadata: the stored user keeps its username and
metadata and only `connected` is mutated; the groups and all other users
are untouched. -/
theorem connect_existing_frame (s : EngineState) (uid uname : String)
    (om : Option Meta) (u0 : User) (h : dictGet s.users uid = some u0) :
    (connect_user s uid uname om).ret = { u0 with connected := true } ∧
    (connect_user s uid uname om).ret.username = u0.username ∧
    (connect_user s uid uname om).ret.metadata = u0.metadata ∧
    (connect_user s uid uname om).state.users =
      dictInsert s.users uid { u0 with connected := true } ∧
    (connect_user s uid uname om).state.groups = s.groups ∧
    ∀ k, k ≠ uid →
      dictGet (connect_user s uid uname om).state.users k =
        dictGet s.users k := by
  refine ⟨by simp [connect_user, h], by simp [connect_user, h],
          by simp [connect_user, h], by simp [connect_user, h],
          by simp [connect_user, h], ?_⟩
  intro k hk
  have h2 : (connect_user s uid uname om).state.users =
      dictInsert s.users uid { u0 with connected := true } := by
    simp [connect_user, h]
  rw [h2]
  exact dictGet_insert_ne _ _ _ _ hk

/-- Witness for C10: connecting an existing user under a different name
and metadata leaves username and metadata as they were. -/
theorem connect_existing_frame_witness :
    dictGet (EngineState.mk
        [("u1", { id := "u1", username := "Alice",
                  metadata := [("lang", "fr")], connected := false })]
        []).users "u1" =
      some { id := "u1", username := "Alice",
             metadata := [("lang", "fr")], connected := false } ∧
    (connect_user (EngineState.mk
        [("u1", { id := "u1", username := "Alice",
                  metadata := [("lang", "fr")], connected := false })]
        []) "u1" "Zed" (some [("x", "y")])).ret =
      { id := "u1", username := "Alice",
        metadata := [("lang", "fr")], connected := true } :=
  ⟨by decide,
   (connect_existing_frame _ "u1" "Zed" (some [("x", "y")])
     { id := "u1", username := "Alice", metadata := [("lang", "fr")],
       connected := false } (by decide)).1⟩

/-- Claim C6 counterexample: `on_init` is claimed to be in the engine's
accepted event set, but `ItalkEngine.__init__` builds `self.listeners`
with only four keys, so subscribing to `on_init` appends nothing, logs
the unknown-event warning, and leaves every callback list unchanged. -/
theorem subscribe_on_init_rejected :
    engineOn initialListeners "on_init"
      { cid := 0, declModule := "m", behavior := none } =
      (initialListeners,
       [("warning", "Tentative ajouter un evenement inconnu : on_init")]) := by
  decide

/-- Claim C6 amended: the engine's fixed event set is `on_connect`,
`on_disconnect`, `on_message`, `on_error` (without `on_init`).  For
those, `engineOn` appends the callback to that event's sequence and
changes nothing else; for any other name — including `on_init` — it
logs the warning, never raises (it is total), and leaves every sequence
unchanged. -/
theorem engineOn_spec (a b c d : List Callback) (e : String) (cb : Callback) :
    let L : Dict (List Callback) :=
      [("on_connect", a), ("on_disconnect", b), ("on_message", c),
       ("on_error", d)]
    (e = "on_connect" → engineOn L e cb =
      ([("on_connect", a ++ [cb]), ("on_disconnect", b), ("on_message", c),
        ("on_error", d)], [])) ∧
    (e = "on_disconnect" → engineOn L e cb =
      ([("on_connect", a), ("on_disconnect", b ++ [cb]), ("on_message", c),
        ("on_error", d)], [])) ∧
    (e = "on_message" → engineOn L e cb =
      ([("on_connect", a), ("on_disconnect", b), ("on_message", c ++ [cb]),
        ("on_error", d)], [])) ∧
    (e = "on_error" → engineOn L e cb =
      ([("on_connect", a), ("on_disconnect", b), ("on_message", c),
        ("on_error", d ++ [cb])], [])) ∧
    (e ≠ "on_connect" → e ≠ "on_disconnect" → e ≠ "on_message" →
      e ≠ "on_error" → engineOn L e cb =
      (L, [("warning",
            "Tentative ajouter un evenement inconnu : " ++ e)])) := by
  intro L
  refine ⟨?_, ?_, ?_, ?_, ?_⟩
  · rintro rfl; rfl
  · rintro rfl; rfl
  · rintro rfl; rfl
  · rintro rfl; rfl
  · intro h1 h2 h3 h4
    simp [engineOn, dictGet, L, Ne.symm h1, Ne.symm h2, Ne.symm h3,
      Ne.symm h4]

/-- Witness for C6's amended theorem at `on_message`. -/
theorem engineOn_spec_witness :
    engineOn [("on_connect", []), ("on_disconnect", []), ("on_message", []),
        ("on_error", [])] "on_message"
      { cid := 3, declModule := "m", behavior := none } =
      ([("on_connect", []), ("on_disconnect", []),
        ("on_message", [{ cid := 3, declModule := "m", behavior := none }]),
        ("on_error", [])], []) :=
  (engineOn_spec [] [] [] [] "on_message"
    { cid := 3, declModule := "m", behavior := none }).2.2.1 rfl

theorem runCallbacks_eq_map (cbs : List Callback) :
    runCallbacks cbs = cbs.map entryOf := by
  induction cbs with
  | nil => rfl
  | cons cb rest ih => simp [runCallbacks, ih]

/-- Claim C7: a dispatch by `ItalkEngine.emit` or
`ExtensionManager.call_hook` runs exactly the registered callbacks, in
registration order — the record at position `i` is the entry of the
`i`-th callback, whatever the callbacks before it did — and a raising
callback yields a caught-and-logged entry rather than aborting, so
every subsequent callback of the same dispatch still runs. -/
theorem publish_isolates_errors (L : Dict (List Callback)) (M : ManagerState)
    (e : String) (cbs : List Callback)
    (hL : dictGet L e = some cbs) (hM : dictGet M.hooks e = some cbs) :
    emit L e = cbs.map entryOf ∧
    call_hook M e = cbs.map entryOf ∧
    (emit L e).length = cbs.length ∧
    (∀ i, (hi : i < cbs.length) →
      (emit L e)[i]? = some (entryOf cbs[i])) := by
  have he : emit L e = cbs.map entryOf := by
    simp [emit, hL, runCallbacks_eq_map]
  have hc : call_hook M e = cbs.map entryOf := by
    simp [call_hook, hM, runCallbacks_eq_map]
  refine ⟨he, hc, by simp [he], ?_⟩
  intro i hi
  rw [he, List.getElem?_map, List.getElem?_eq_getElem hi]
  rfl

/-- Witness for C7: the first callback raises, the error is logged, and
the second callback is still invoked, in order, on both dispatchers. -/
theorem publish_isolates_errors_witness :
    emit [("on_message", [{ cid := 1, declModule := "m",
                            behavior := some "boom" },
                          { cid := 2, declModule := "m",
                            behavior := none }])] "on_message" =
      [DispatchEntry.errorLogged 1 "boom", DispatchEntry.invoked 2] ∧
    call_hook
      { extensions := [],
        hooks := [("on_message", [{ cid := 1, declModule := "m",
                                    behavior := some "boom" },
                                  { cid := 2, declModule := "m",
                                    behavior := none }])] } "on_message" =
      [DispatchEntry.errorLogged 1 "boom", DispatchEntry.invoked 2] :=
  ⟨(publish_isolates_errors
      [("on_message", [{ cid := 1, declModule := "m", behavior := some "boom" },
                       { cid := 2, declModule := "m", behavior := none }])]
      { extensions := [],
        hooks := [("on_message",
          [{ cid := 1, declModule := "m", behavior := some "boom" },
           { cid := 2, declModule := "m", behavior := none }])] }
      "on_message"
      [{ cid := 1, declModule := "m", behavior := some "boom" },
       { cid := 2, declModule := "m", behavior := none }] rfl rfl).1,
   (publish_isolates_errors
      [("on_message", [{ cid := 1, declModule := "m", behavior := some "boom" },
                       { cid := 2, declModule := "m", behavior := none }])]
      { extensions := [],
        hooks := [("on_message",
          [{ cid := 1, declModule := "m", behavior := some "boom" },
           { cid := 2, declModule := "m", behavior := none }])] }
      "on_message"
      [{ cid := 1, declModule := "m", behavior := some "boom" },
       { cid := 2, declModule := "m", behavior := none }] rfl rfl).2.1⟩

/-- Claim C8: when executing the module body raises during
`load_extension`, the failure is caught and logged as an error, the
manager state is exactly unchanged — so if the name was not registered
before, it is not registered afterwards and the hook table holds none
of its hooks: a load either completes fully or leaves nothing. -/
theorem load_failure_atomic (fs : String → LoadOutcome) (st : ManagerState)
    (name msg : String) (h : fs name = LoadOutcome.execFails msg) :
    (load_extension fs st name).1 = st ∧
    (load_extension fs st name).2 =
      [("error", "Erreur chargement extension " ++ name)] ∧
    (dictGet st.extensions name = none →
      dictGet (load_extension fs st name).1.extensions name = none ∧
      (load_extension fs st name).1.hooks = st.hooks) := by
  refine ⟨by simp [load_extension, h], by simp [load_extension, h], ?_⟩
  intro h2
  simp [load_extension, h, h2]

/-- Witness for C8: a module body that raises leaves the fresh manager
exactly as it was. -/
theorem load_failure_atomic_witness :
    (load_extension (fun _ => LoadOutcome.execFails "boom")
        { extensions := [], hooks := initialHooks } "ext").1 =
      { extensions := [], hooks := initialHooks } :=
  (load_failure_atomic (fun _ => LoadOutcome.execFails "boom")
    { extensions := [], hooks := initialHooks } "ext" "boom" rfl).1

/-- Claim C1 counterexample: extension `alpha` exports an `on_message`
hook whose `__module__` is `helpers` (a function it imported rather
than defined).  `load_extension` binds it, but `unload_extension`
removes only callbacks with `__module__ == "alpha"`, so after
load-then-unload the `on_message` list still holds the callback —
not equal to the empty list it was before the load, and the binding the
extension contributed was not removed. -/
theorem unload_leaves_foreign_hook :
    dictGet ((load_extension
        (fun _ => LoadOutcome.ok
          { modName := "alpha",
            exports := [("on_message",
              { cid := 7, declModule := "helpers", behavior := none })] })
        { extensions := [], hooks := initialHooks } "alpha").1).hooks
        "on_message" =
      some [{ cid := 7, declModule := "helpers", behavior := none }] ∧
    dictGet ((unload_extension
        ((load_extension
          (fun _ => LoadOutcome.ok
            { modName := "alpha",
              exports := [("on_message",
                { cid := 7, declModule := "helpers", behavior := none })] })
          { extensions := [], hooks := initialHooks } "alpha").1)
        "alpha").1).hooks "on_message" =
      some [{ cid := 7, declModule := "helpers", behavior := none }] ∧
    dictGet initialHooks "on_message" = some [] := by
  decide

theorem unload_filter_bind (hooks : Dict (List Callback)) (m : ExtModule)
    (hexp : ∀ p ∈ m.exports, p.2.declModule = m.modName)
    (hold : ∀ p ∈ hooks, ∀ f ∈ p.2, f.declModule ≠ m.modName) :
    (bindHooks hooks m).map
      (fun p => (p.1, p.2.filter (fun f => f.declModule != m.modName))) =
      hooks := by
  rw [bindHooks, List.map_map]
  have key : ∀ p ∈ hooks,
      ((fun p : String × List Callback =>
          (p.1, p.2.filter (fun f => f.declModule != m.modName))) ∘
        (fun p : String × List Callback =>
          match dictGet m.exports p.1 with
          | some f => (p.1, p.2 ++ [f])
          | none => p)) p = p := by
    intro p hp
    have hfl : p.2.filter (fun f => f.declModule != m.modName) = p.2 :=
      List.filter_eq_self.mpr (fun a ha => by
        simpa [bne_iff_ne] using hold p hp a ha)
    cases hx : dictGet m.exports p.1 with
    | none => simp [Function.comp, hx, hfl]
    | some f0 =>
        have hf0 : f0.declModule = m.modName := by
          simpa using hexp (p.1, f0) (dictGet_mem _ _ _ hx)
        simp [Function.comp, hx, List.filter_append, hfl, hf0]
  rw [List.map_congr_left key]
  simp

/-- Claim C1 amended: `unload_extension` removes from every hook list
exactly the callbacks whose `__module__` equals the unloaded module's
`__name__`; consequently load-then-unload restores the hook table and
the extension registry exactly, provided every hook the module exports
declares the module itself as its `__module__`, no previously bound
callback declares that module, and the name was not already loaded. -/
theorem load_unload_roundtrip (fs : String → LoadOutcome)
    (st : ManagerState) (name : String) (m : ExtModule)
    (hfs : fs name = LoadOutcome.ok m)
    (hname : m.modName = name)
    (hexp : ∀ p ∈ m.exports, p.2.declModule = name)
    (hold : ∀ p ∈ st.hooks, ∀ f ∈ p.2, f.declModule ≠ name)
    (hnew : dictGet st.extensions name = none) :
    (unload_extension (load_extension fs st name).1 name).1 = st := by
  obtain ⟨se, sh⟩ := st
  have h1 : (load_extension fs ⟨se, sh⟩ name).1 =
      { extensions := dictInsert se name m, hooks := bindHooks sh m } := by
    simp [load_extension, hfs]
  rw [h1]
  have h2 : dictGet (dictInsert se name m) name = some m :=
    dictGet_insert_self _ _ _
  have h3 := unload_filter_bind sh m
    (by rw [hname]; exact hexp) (by rw [hname]; exact hold)
  simp only [unload_extension, h2]
  simp only [ManagerState.mk.injEq]
  exact ⟨dictRemove_insert_absent _ _ _ hnew, h3⟩

/-- Witness for C1's amended theorem: a well-behaved extension whose
exported hook declares the module itself round-trips the fresh manager
exactly. -/
theorem load_unload_roundtrip_witness :
    (unload_extension
      ((load_extension
        (fun _ => LoadOutcome.ok
          { modName := "alpha",
            exports := [("on_message",
              { cid := 5, declModule := "alpha", behavior := none })] })
        { extensions := [], hooks := initialHooks } "alpha").1)
      "alpha").1 = { extensions := [], hooks := initialHooks } :=
  load_unload_roundtrip
    (fun _ => LoadOutcome.ok
      { modName := "alpha",
        exports := [("on_message",
          { cid := 5, declModule := "alpha", behavior := none })] })
    { extensions := [], hooks := initialHooks } "alpha"
    { modName := "alpha",
      exports := [("on_message",
        { cid := 5, declModule := "alpha", behavior := none })] }
    rfl rfl (by decide) (by decide) rfl

theorem loadUsers_eq (d : Dict User) (l : List SavedUser)
    (hfresh : ∀ su ∈ l, dictGet d su.id = none)
    (hnd : (l.map SavedUser.id).Nodup) :
    loadUsers d l = d ++ l.map (fun su => (su.id, userOfSaved su)) := by
  induction l generalizing d with
  | nil => simp [loadUsers]
  | cons su rest ih =>
      rw [List.map_cons, List.nodup_cons] at hnd
      have hsplit := hnd
      have habs : dictGet d su.id = none :=
        hfresh su (List.mem_cons_self _ _)
      have hfresh2 : ∀ su2 ∈ rest,
          dictGet (d ++ [(su.id, userOfSaved su)]) su2.id = none := by
        intro su2 h2
        rw [dictGet_append_left_none _ _ _
          (hfresh su2 (List.mem_cons_of_mem _ h2))]
        have hne : ¬ su.id = su2.id := by
          intro hcontra
          exact hsplit.1 (hcontra ▸ List.mem_map_of_mem SavedUser.id h2)
        simp [dictGet, hne]
      calc loadUsers d (su :: rest)
          = loadUsers (dictInsert d su.id (userOfSaved su)) rest := rfl
        _ = loadUsers (d ++ [(su.id, userOfSaved su)]) rest := by
              rw [dictInsert_absent _ _ _ habs]
        _ = (d ++ [(su.id, userOfSaved su)]) ++
              rest.map (fun su => (su.id, userOfSaved su)) :=
              ih _ hfresh2 hsplit.2
        _ = d ++ (su :: rest).map (fun su => (su.id, userOfSaved su)) := by
              simp

theorem loadMembers_eq (users : Dict User) (acc : Dict User)
    (ids : List String) (hnd : ids.Nodup)
    (hfresh : ∀ uid ∈ ids, dictGet acc uid = none) :
    loadMembers users acc ids = acc ++ ids.filterMap (fun uid =>
      (dictGet users uid).map (fun u => (uid, u))) := by
  induction ids generalizing acc with
  | nil => simp [loadMembers]
  | cons uid rest ih =>
      have hsplit := List.nodup_cons.mp hnd
      cases hx : dictGet users uid with
      | none =>
          have hstep : loadMembers users acc (uid :: rest) =
              loadMembers users acc rest := by
            simp only [loadMembers, List.foldl_cons, hx]
          rw [hstep, ih acc hsplit.2
            (fun u hu => hfresh u (List.mem_cons_of_mem _ hu))]
          simp [hx]
      | some u =>
          have hacc : dictGet acc uid = none :=
            hfresh uid (List.mem_cons_self _ _)
          have hstep : loadMembers users acc (uid :: rest) =
              loadMembers users (dictInsert acc uid u) rest := by
            simp only [loadMembers, List.foldl_cons, hx]
          have hfresh2 : ∀ uid2 ∈ rest,
              dictGet (acc ++ [(uid, u)]) uid2 = none := by
            intro uid2 h2
            rw [dictGet_append_left_none _ _ _
              (hfresh uid2 (List.mem_cons_of_mem _ h2))]
            have hne : ¬ uid = uid2 := fun hc => hsplit.1 (hc ▸ h2)
            simp [dictGet, hne]
          rw [hstep, dictInsert_absent _ _ _ hacc,
            ih _ hsplit.2 hfresh2]
          simp [hx]

theorem loadGroups_eq (users : Dict User) (d : Dict Group)
    (l : List SavedGroup)
    (hfresh : ∀ sg ∈ l, dictGet d sg.name = none)
    (hnd : (l.map SavedGroup.name).Nodup) :
    loadGroups users d l = d ++ l.map (fun sg =>
      (sg.name,
       ({ name := sg.name,
          members := loadMembers users [] sg.members } : Group))) := by
  induction l generalizing d with
  | nil => simp [loadGroups]
  | cons sg rest ih =>
      rw [List.map_cons, List.nodup_cons] at hnd
      have hsplit := hnd
      have habs : dictGet d sg.name = none :=
        hfresh sg (List.mem_cons_self _ _)
      have hfresh2 : ∀ sg2 ∈ rest,
          dictGet (d ++ [(sg.name,
            ({ name := sg.name,
               members := loadMembers users [] sg.members } : Group))])
            sg2.name = none := by
        intro sg2 h2
        rw [dictGet_append_left_none _ _ _
          (hfresh sg2 (List.mem_cons_of_mem _ h2))]
        have hne : ¬ sg.name = sg2.name := by
          intro hcontra
          exact hsplit.1 (hcontra ▸ List.mem_map_of_mem SavedGroup.name h2)
        simp [dictGet, hne]
      calc loadGroups users d (sg :: rest)
          = loadGroups users
              (dictInsert d sg.name
                { name := sg.name,
                  members := loadMembers users [] sg.members }) rest := rfl
        _ = loadGroups users
              (d ++ [(sg.name,
                { name := sg.name,
                  members := loadMembers users [] sg.members })]) rest := by
              rw [dictInsert_absent _ _ _ habs]
        _ = (d ++ [(sg.name,
              { name := sg.name,
                members := loadMembers users [] sg.members })]) ++
              rest.map (fun sg =>
                (sg.name,
                 { name := sg.name,
                   members := loadMembers users [] sg.members })) :=
              ih _ hfresh2 hsplit.2
        _ = d ++ (sg :: rest).map (fun sg =>
              (sg.name,
               { name := sg.name,
                 members := loadMembers users [] sg.members })) := by
              simp

/-- Claim C5: for every engine state satisfying the dict invariants
(each user keyed by its own id, each group keyed by its own name,
unique keys, unique member ids), `save_state` followed by `load_state`
reproduces the user collection exactly — same ids, usernames, metadata
and connected flags — and rebuilds each group's membership from its
saved member-id list, silently dropping every id that does not resolve
to a loaded user and binding the surviving ids to the reloaded user
objects. -/
theorem save_load_roundtrip (s : EngineState)
    (hu1 : ∀ p ∈ s.users, p.1 = p.2.id)
    (hu2 : (s.users.map Prod.fst).Nodup)
    (hg1 : ∀ p ∈ s.groups, p.1 = p.2.name)
    (hg2 : (s.groups.map Prod.fst).Nodup)
    (hm : ∀ p ∈ s.groups, (p.2.members.map Prod.fst).Nodup) :
    (load_state (save_state s)).users = s.users ∧
    (load_state (save_state s)).groups = s.groups.map (fun p =>
      (p.1, ({ name := p.2.name,
               members := (p.2.members.map Prod.fst).filterMap (fun uid =>
                 (dictGet s.users uid).map (fun u => (uid, u))) } :
             Group))) := by
  have hfu : ∀ su ∈ (save_state s).users,
      dictGet ([] : Dict User) su.id = none := fun su _ => rfl
  have hnu : ((save_state s).users.map SavedUser.id).Nodup := by
    simp only [save_state, List.map_map]
    have hpt : ∀ p ∈ s.users,
        (SavedUser.id ∘ fun p : String × User =>
          ({ id := p.2.id, username := p.2.username,
             metadata := p.2.metadata,
             connected := p.2.connected } : SavedUser)) p = Prod.fst p := by
      intro p hp
      simp [Function.comp]
      exact (hu1 p hp).symm
    rw [List.map_congr_left hpt]
    exact hu2
  have hlu : loadUsers [] (save_state s).users = s.users := by
    rw [loadUsers_eq [] _ hfu hnu]
    simp only [List.nil_append, save_state, List.map_map]
    have hpt : ∀ p ∈ s.users,
        ((fun su => (su.id, userOfSaved su)) ∘ fun p : String × User =>
          ({ id := p.2.id, username := p.2.username,
             metadata := p.2.metadata,
             connected := p.2.connected } : SavedUser)) p = p := by
      intro p hp
      have h1 := hu1 p hp
      obtain ⟨k, u⟩ := p
      simp only [Function.comp, userOfSaved]
      simp at h1
      subst h1
      rfl
    rw [List.map_congr_left hpt]
    simp
  have husers : (load_state (save_state s)).users = s.users := hlu
  refine ⟨husers, ?_⟩
  have hfg : ∀ sg ∈ (save_state s).groups,
      dictGet ([] : Dict Group) sg.name = none := fun sg _ => rfl
  have hng : ((save_state s).groups.map SavedGroup.name).Nodup := by
    simp only [save_state, List.map_map]
    have hpt : ∀ p ∈ s.groups,
        (SavedGroup.name ∘ fun p : String × Group =>
          ({ name := p.2.name,
             members := p.2.members.map Prod.fst } : SavedGroup)) p =
          Prod.fst p := by
      intro p hp
      simp [Function.comp]
      exact (hg1 p hp).symm
    rw [List.map_congr_left hpt]
    exact hg2
  show loadGroups (loadUsers [] (save_state s).users) []
      (save_state s).groups = _
  rw [hlu, loadGroups_eq s.users [] _ hfg hng]
  simp only [List.nil_append, save_state, List.map_map]
  apply List.map_congr_left
  intro p hp
  simp only [Function.comp]
  rw [loadMembers_eq s.users [] _ (hm p hp) (fun uid _ => rfl)]
  simp only [List.nil_append]
  have h1 := hg1 p hp
  obtain ⟨k, g⟩ := p
  simp at h1
  simp [← h1]

/-- Witness for C5: a state with one connected user carrying metadata
and one group holding that user plus a dangling member id round-trips
with the dangling id dropped. -/
theorem save_load_roundtrip_witness :
    (load_state (save_state (EngineState.mk
        [("u1", { id := "u1", username := "Alice",
                  metadata := [("lang", "fr")], connected := true })]
        [("g", { name := "g",
                 members := [("u1", { id := "u1", username := "Alice",
                                      metadata := [("lang", "fr")],
                                      connected := true }),
                             ("ghost", { id := "ghost", username := "?",
                                         metadata := [],
                                         connected := false })] })]))).users =
      [("u1", { id := "u1", username := "Alice",
                metadata := [("lang", "fr")], connected := true })] ∧
    (load_state (save_state (EngineState.mk
        [("u1", { id := "u1", username := "Alice",
                  metadata := [("lang", "fr")], connected := true })]
        [("g", { name := "g",
                 members := [("u1", { id := "u1", username := "Alice",
                                      metadata := [("lang", "fr")],
                                      connected := true }),
                             ("ghost", { id := "ghost", username := "?",
                                         metadata := [],
                                         connected := false })] })]))).groups =
      [("g", { name := "g",
               members := [("u1", { id := "u1", username := "Alice",
                                    metadata := [("lang", "fr")],
                                    connected := true })] })] :=
  ⟨(save_load_roundtrip _ (by decide) (by decide) (by decide) (by decide)
      (by decide)).1,
   (save_load_roundtrip (EngineState.mk
        [("u1", { id := "u1", username := "Alice",
                  metadata := [("lang", "fr")], connected := true })]
        [("g", { name := "g",
                 members := [("u1", { id := "u1", username := "Alice",
                                      metadata := [("lang", "fr")],
                                      connected := true }),
                             ("ghost", { id := "ghost", username := "?",
                                         metadata := [],
                                         connected := false })] })])
      (by decide) (by decide) (by decide) (by decide) (by decide)).2⟩

end Italk
